import Mathlib

/-!
Verification of the directmatch recruiting-lead aggregator.

This file gives a shallow embedding of the identity-resolution and
requirement-matching pipeline of the repository and proves properties of it.

Modelling conventions:
* The SQLite `persons` table (src/database/models.py) is a `List Person` in
  insertion order; a SQLAlchemy query's `.first()` is `List.find?`.
* Python `None` is `Option.none`; Python truthiness of a string value
  (`if s:`) is `truthyS`.
* An incoming candidate dictionary (the `person_data` bag built by the four
  API clients) is a `PersonData`: an outer `Option` on a field records
  whether the dictionary key is present at all (the clients emit different
  key sets), the inner value is the key's value, itself an `Option` where
  the value may be Python `None`.
* `last_updated_at` timestamps are `Nat`; the SQLAlchemy column declares
  `onupdate=func.now()`, so committing any update of a row refreshes it,
  which the model applies through the `now` argument of the writers.
* Raw per-source payloads are opaque blobs, modelled as `String`.
* Match scores are real numbers (the float arithmetic of numpy/sklearn is
  modelled exactly over `ℝ`).
-/

namespace DirectMatch

/-- Python truthiness of an optional string: `None` and `""` are falsy. -/
def truthyS : Option String → Bool
  | none => false
  | some s => !(s == "")

/-- Row of the `persons` table (src/database/models.py, class Person).
The schema marks `github_username`, `qiita_id` and `orcid_id` as
`unique=True`; `email` has no unique constraint; `full_name` is
`nullable=False`; `is_researcher`/`is_engineer` are `nullable=False` with
default `False`.  `data_sources` stands for the TEXT column that
src/database/migration.py adds to the raw SQLite table; models.py maps no
such column on the ORM class, a discrepancy modelled by the `Staged`
definitions in the claim-C8 section. -/
structure Person where
  id : String
  full_name : Option String := none
  email : Option String := none
  current_affiliation : Option String := none
  github_username : Option String := none
  qiita_id : Option String := none
  orcid_id : Option String := none
  linkedin_url : Option String := none
  personal_blog_url : Option String := none
  is_researcher : Bool := false
  is_engineer : Bool := false
  experience_summary : Option String := none
  raw_github_data : Option String := none
  raw_qiita_data : Option String := none
  raw_openalex_data : Option String := none
  raw_kaken_data : Option String := none
  data_sources : Option (List String) := none
  last_updated_at : Nat := 0
  match_score : Option ℝ := none

/-- crud.get_person_by_id: first row whose primary key matches. -/
def get_person_by_id (db : List Person) (person_id : String) : Option Person :=
  db.find? (fun p => p.id == person_id)

/-- crud.get_all_persons: `query.offset(skip).limit(limit)` with the
source's default arguments `skip=0, limit=100`. -/
def get_all_persons (db : List Person) (skip : Nat := 0) (limit : Nat := 100) :
    List Person :=
  (db.drop skip).take limit

/-- The identifier bag passed to crud.find_person_by_identifiers. -/
structure Identifiers where
  email : Option String := none
  orcid_id : Option String := none
  github_username : Option String := none
  full_name : Option String := none
  current_affiliation : Option String := none

/-- crud.find_person_by_identifiers: the ordered identifier lookup.  Each
step runs only if the record carries that identifier (Python truthiness);
a step that finds a row returns it (`if person: return person`), and a
step that finds none falls through to the next step. -/
def find_person_by_identifiers (db : List Person) (identifiers : Identifiers) :
    Option Person :=
  match (if truthyS identifiers.email then
          db.find? (fun p => p.email == identifiers.email) else none) with
  | some person => some person
  | none =>
  match (if truthyS identifiers.orcid_id then
          db.find? (fun p => p.orcid_id == identifiers.orcid_id) else none) with
  | some person => some person
  | none =>
  match (if truthyS identifiers.github_username then
          db.find? (fun p => p.github_username == identifiers.github_username) else none) with
  | some person => some person
  | none =>
    if truthyS identifiers.full_name && truthyS identifiers.current_affiliation then
      db.find? (fun p =>
        p.full_name == identifiers.full_name &&
        p.current_affiliation == identifiers.current_affiliation)
    else none

/-- Two optional column values collide under a UNIQUE constraint exactly
when both are non-null and equal (SQLite allows several NULLs). -/
def dupOpt (a b : Option String) : Bool :=
  a.isSome && a == b

/-- The storage-schema constraints an INSERT of `p` into `db` would
violate: primary-key collision on `id`, or a duplicate non-null value in
one of the three UNIQUE columns `github_username`, `qiita_id`, `orcid_id`.
`email` carries no unique constraint in src/database/models.py. -/
def insertViolation (db : List Person) (p : Person) : Bool :=
  db.any (fun q =>
    p.id == q.id ||
    dupOpt p.github_username q.github_username ||
    dupOpt p.qiita_id q.qiita_id ||
    dupOpt p.orcid_id q.orcid_id)

/-- crud.create_person: `db.add` + `commit`.  The commit raises (and the
session is rolled back, leaving the store unchanged) when the INSERT
violates the schema: a NOT NULL `full_name`, or one of the unique
constraints checked by `insertViolation`.  `.error ()` models the raised
exception. -/
def create_person (db : List Person) (p : Person) :
    Except Unit (Person × List Person) :=
  if p.full_name.isNone then .error ()
  else if insertViolation db p then .error ()
  else .ok (p, db ++ [p])

/-- An incoming candidate dictionary (`person_data`).  Outer `Option` =
"the key is present in the dict"; for the string-valued keys the inner
`Option` is the value, which the clients may set to Python `None`.  The
four `raw_*` keys, when present, always carry a non-null payload blob. -/
structure PersonData where
  full_name : Option String := none
  email : Option (Option String) := none
  current_affiliation : Option (Option String) := none
  github_username : Option (Option String) := none
  qiita_id : Option (Option String) := none
  orcid_id : Option (Option String) := none
  linkedin_url : Option (Option String) := none
  personal_blog_url : Option (Option String) := none
  is_engineer : Option Bool := none
  is_researcher : Option Bool := none
  experience_summary : Option (Option String) := none
  raw_github_data : Option String := none
  raw_qiita_data : Option String := none
  raw_openalex_data : Option String := none
  raw_kaken_data : Option String := none
  data_sources : Option (List String) := none

/-- `setattr` semantics of one dict key on one nullable column: a present
key overwrites the column with its value (even `None`), an absent key
leaves the column alone. -/
def setOpt (new : Option (Option String)) (old : Option String) : Option String :=
  match new with
  | some v => v
  | none => old

/-- Effect of crud.update_person's `setattr` loop on one row, followed by
the commit refreshing `last_updated_at` (column `onupdate=func.now()`).
The `data_sources` write models the column as mapped (the intent of
migration.py); on the staged, unmapped mapper the setattr persists
nothing — see `applyUpdateStaged`. -/
def applyUpdate (p : Person) (d : PersonData) (now : Nat) : Person where
  id := p.id
  full_name := match d.full_name with
    | some v => some v
    | none => p.full_name
  email := setOpt d.email p.email
  current_affiliation := setOpt d.current_affiliation p.current_affiliation
  github_username := setOpt d.github_username p.github_username
  qiita_id := setOpt d.qiita_id p.qiita_id
  orcid_id := setOpt d.orcid_id p.orcid_id
  linkedin_url := setOpt d.linkedin_url p.linkedin_url
  personal_blog_url := setOpt d.personal_blog_url p.personal_blog_url
  is_engineer := d.is_engineer.getD p.is_engineer
  is_researcher := d.is_researcher.getD p.is_researcher
  experience_summary := setOpt d.experience_summary p.experience_summary
  raw_github_data := (d.raw_github_data).orElse (fun _ => p.raw_github_data)
  raw_qiita_data := (d.raw_qiita_data).orElse (fun _ => p.raw_qiita_data)
  raw_openalex_data := (d.raw_openalex_data).orElse (fun _ => p.raw_openalex_data)
  raw_kaken_data := (d.raw_kaken_data).orElse (fun _ => p.raw_kaken_data)
  data_sources := match d.data_sources with
    | some l => some l
    | none => p.data_sources
  last_updated_at := now
  match_score := p.match_score

/-- The UPDATE of row `p'` violates a unique constraint when some other
row (different primary key) holds the same non-null value in a UNIQUE
column. -/
def updateViolation (db : List Person) (p : Person) (p' : Person) : Bool :=
  db.any (fun q =>
    !(q.id == p.id) &&
    (dupOpt p'.github_username q.github_username ||
     dupOpt p'.qiita_id q.qiita_id ||
     dupOpt p'.orcid_id q.orcid_id))

/-- crud.update_person: fetch by id (`None` if unknown — `.ok (none, db)`),
apply the dict with `setattr`, commit.  A commit that violates the schema
raises and rolls back (`.error ()`). -/
def update_person (db : List Person) (person_id : String) (d : PersonData)
    (now : Nat) : Except Unit (Option Person × List Person) :=
  match db.find? (fun p => p.id == person_id) with
  | none => .ok (none, db)
  | some p =>
    let p' := applyUpdate p d now
    if updateViolation db p p' then .error ()
    else if p'.full_name.isNone then .error ()
    else .ok (some p', db.map (fun q => if q.id == person_id then applyUpdate q d now else q))

/-- One iteration of crud.update_match_scores' loop: fetch the person by
id; when found, set its `match_score` and count it (the commit refreshes
`last_updated_at` of the dirty row). -/
def scoreStep (now : Nat) (acc : Nat × List Person) (entry : String × ℝ) :
    Nat × List Person :=
  if (get_person_by_id acc.2 entry.1).isSome then
    (acc.1 + 1,
     acc.2.map (fun p =>
       if p.id == entry.1 then
         { p with match_score := some entry.2, last_updated_at := now }
       else p))
  else acc

/-- crud.update_match_scores: for each entry of the score dict (a Python
dict: keys are unique, iterated in insertion order), fetch the person and
set `match_score`; the final commit refreshes `last_updated_at` on every
dirty row.  Returns the number of ids that were found, and the new
store. -/
def update_match_scores (db : List Person) (score_dict : List (String × ℝ))
    (now : Nat) : Nat × List Person :=
  score_dict.foldl (scoreStep now) (0, db)

/-- collector._save_person_to_db: the identifier bag assembled from the
incoming dict with `.get` (absent key and present-`None` both give
`None`). -/
def identifiersOf (pd : PersonData) : Identifiers where
  email := pd.email.join
  orcid_id := pd.orcid_id.join
  github_username := pd.github_username.join
  full_name := pd.full_name
  current_affiliation := pd.current_affiliation.join

/-- collector._save_person_to_db: the data-source union loop — append each
new source not already present, preserving order. -/
def sourcesUnion (existing_sources : List String) (new_sources : List String) :
    List String :=
  new_sources.foldl (fun acc s => if s ∈ acc then acc else acc ++ [s])
    existing_sources

/-- collector._save_person_to_db, merge branch: the in-place mutation of
the incoming dict before it is handed to crud.update_person — summary
concatenation (only when both summaries are truthy), OR-ing of the two
classification flags, and the data-source union (only when the incoming
dict carries a non-empty `data_sources` list) — the union loop as written
at collector.py:277-285; in the staged program that branch raises before
reaching the union (see `save_person_to_db_staged`).  The loop copying
non-null `raw_*` values onto the row is subsumed by `applyUpdate`, which
writes every present `raw_*` key of the dict. -/
def mergedData (existing : Person) (pd : PersonData) : PersonData :=
  let joined : String :=
    (existing.experience_summary.getD "") ++ "\n\n" ++
      ((pd.experience_summary.join).getD "")
  let pd1 :=
    if truthyS pd.experience_summary.join && truthyS existing.experience_summary then
      { pd with experience_summary := some (some joined) }
    else pd
  let pd2 := if existing.is_engineer then { pd1 with is_engineer := some true } else pd1
  let pd3 := if existing.is_researcher then { pd2 with is_researcher := some true } else pd2
  match pd3.data_sources with
  | some new_sources =>
    if new_sources.isEmpty then pd3
    else
      let united := sourcesUnion (existing.data_sources.getD []) new_sources
      { pd3 with data_sources := some united }
  | none => pd3

/-- collector._save_person_to_db, create branch: default the
`data_sources` key to `[]` when the dict does not carry it. -/
def withDefaultSources (pd : PersonData) : PersonData :=
  if pd.data_sources.isNone then { pd with data_sources := some [] } else pd

/-- The row `Person(**person_data)` built by crud.create_person from an
incoming dict: absent keys fall back to the column defaults.  On the
staged mapper the constructor raises `TypeError` for a present
`data_sources` key instead — see `save_person_to_db_staged`. -/
def personOfData (pd : PersonData) (freshId : String) (now : Nat) : Person where
  id := freshId
  full_name := pd.full_name
  email := pd.email.join
  current_affiliation := pd.current_affiliation.join
  github_username := pd.github_username.join
  qiita_id := pd.qiita_id.join
  orcid_id := pd.orcid_id.join
  linkedin_url := pd.linkedin_url.join
  personal_blog_url := pd.personal_blog_url.join
  is_engineer := pd.is_engineer.getD false
  is_researcher := pd.is_researcher.getD false
  experience_summary := pd.experience_summary.join
  raw_github_data := pd.raw_github_data
  raw_qiita_data := pd.raw_qiita_data
  raw_openalex_data := pd.raw_openalex_data
  raw_kaken_data := pd.raw_kaken_data
  data_sources := pd.data_sources
  last_updated_at := now
  match_score := none

/-- collector._save_person_to_db: resolve the incoming record against the
store and write it — update the person found by the identifier lookup, or
create a new row.  Any exception from the write is caught, the session is
rolled back (store unchanged) and `None` is returned; the record is
dropped. `freshId` is the uuid `generate_id` would assign to a new row.
This models the resolver with the `data_sources` column mapped as
intended; `save_person_to_db_staged` models the staged mapper. -/
def save_person_to_db (db : List Person) (pd : PersonData) (freshId : String)
    (now : Nat) : Option String × List Person :=
  match find_person_by_identifiers db (identifiersOf pd) with
  | some existing =>
    match update_person db existing.id (mergedData existing pd) now with
    | .ok (some updated, db') => (some updated.id, db')
    | .ok (none, db') => (none, db')
    | .error _ => (none, db)
  | none =>
    match create_person db (personOfData (withDefaultSources pd) freshId now) with
    | .ok (created, db') => (some created.id, db')
    | .error _ => (none, db)

/-! ### Requirement matcher (src/nlp_processing/matcher.py)

The text normalizer `preprocess_text` (src/nlp_processing/preprocessor.py)
runs external NLP resources (NLTK, MeCab); it is abstracted as a parameter
`tok : String → List String` throughout.  The TF-IDF weighting and cosine
similarity are the documented behaviour of scikit-learn's
`TfidfVectorizer` (defaults: raw term counts, smoothed idf
`ln((1+n)/(1+df)) + 1`, l2-normalised rows with zero rows kept) and
`cosine_similarity` (dot product of l2-normalised rows), modelled over `ℝ`;
the vectorizer raises on an empty vocabulary, modelled as `none`.  The
whitespace join of the token lists before vectorization is the identity
convenience step of the source and is not re-modelled. -/

/-- One corpus entry per person: the experience summary, with `""`
substituted when the field is falsy (absent or empty). -/
def expText (person : Person) : String :=
  match person.experience_summary with
  | some experience => if experience == "" then "" else experience
  | none => ""

/-- matcher.prepare_corpus: the requirement first, then one entry per
person, order preserved. -/
def prepare_corpus (requirements : String) (persons : List Person) :
    List String :=
  requirements :: persons.map expText

/-- Number of corpus documents containing a term. -/
def docFreq (docs : List (List String)) (t : String) : Nat :=
  (docs.filter (fun d => d.contains t)).length

/-- The vectorizer's vocabulary: the set of tokens occurring in the
corpus. -/
def vocabOf (docs : List (List String)) : Finset String :=
  docs.flatten.toFinset

/-- Smoothed inverse document frequency (scikit-learn default). -/
noncomputable def idfOf (docs : List (List String)) (t : String) : ℝ :=
  Real.log ((1 + (docs.length : ℝ)) / (1 + (docFreq docs t : ℝ))) + 1

/-- Unnormalised TF-IDF row of one document: raw term count times idf. -/
noncomputable def tfidfRaw (docs : List (List String)) (d : List String) :
    String → ℝ :=
  fun t => (d.count t : ℝ) * idfOf docs t

/-- Dot product of two rows over the vocabulary. -/
noncomputable def dotP (V : Finset String) (u v : String → ℝ) : ℝ :=
  ∑ t ∈ V, u t * v t

/-- Euclidean norm of a row. -/
noncomputable def l2norm (V : Finset String) (u : String → ℝ) : ℝ :=
  Real.sqrt (dotP V u u)

/-- l2 row normalisation; a row of norm zero is returned unchanged
(scikit-learn's `normalize`). -/
noncomputable def normalizeRow (V : Finset String) (u : String → ℝ) :
    String → ℝ :=
  fun t => if l2norm V u = 0 then u t else u t / l2norm V u

/-- matcher.create_tfidf_matrix: tokenize every corpus entry and fit the
TF-IDF matrix (one l2-normalised row per entry); `none` models the
`ValueError` scikit-learn raises when the vocabulary is empty. -/
noncomputable def create_tfidf_matrix (tok : String → List String)
    (corpus : List String) : Option (Finset String × List (String → ℝ)) :=
  let docs := corpus.map tok
  let V := vocabOf docs
  if V = ∅ then none
  else some (V, docs.map (fun d => normalizeRow V (tfidfRaw docs d)))

/-- sklearn.cosine_similarity of two rows: dot product after l2
normalisation (zero rows stay zero, so their similarity is 0, not NaN). -/
noncomputable def cosine_similarity (V : Finset String) (u v : String → ℝ) :
    ℝ :=
  dotP V (normalizeRow V u) (normalizeRow V v)

/-- matcher.compute_similarity_scores: similarity of the first row (the
requirement) to every following row, the self-similarity dropped. -/
noncomputable def compute_similarity_scores (V : Finset String)
    (rows : List (String → ℝ)) : List ℝ :=
  match rows with
  | [] => []
  | query :: rest => rest.map (fun row => cosine_similarity V query row)

/-- Python's `list.sort(key=lambda x: x[1], reverse=True)`: a stable sort,
descending in the score component. -/
noncomputable def sortDescBySnd (pairs : List (String × ℝ)) :
    List (String × ℝ) :=
  pairs.mergeSort (fun a b => decide (b.2 ≤ a.2))

/-- The (person id, score) pairs of one matching run before sorting, in
input order; `[]` when vectorization failed. -/
noncomputable def matchPairs (tok : String → List String)
    (requirements : String) (persons : List Person) : List (String × ℝ) :=
  match create_tfidf_matrix tok (prepare_corpus requirements persons) with
  | none => []
  | some (V, rows) =>
    (persons.zip (compute_similarity_scores V rows)).map
      (fun pr => (pr.1.id, pr.2))

/-- matcher.match_requirements: guard the empty inputs, build the corpus
and the TF-IDF matrix, pair ids with scores and sort by score descending.
Any exception during vectorization is caught and yields `[]`. -/
noncomputable def match_requirements (tok : String → List String)
    (requirements : String) (persons : List Person) : List (String × ℝ) :=
  if requirements == "" || persons.isEmpty then []
  else sortDescBySnd (matchPairs tok requirements persons)

/-- recruitment_service.match_requirements_with_persons: fetch the
candidates with crud.get_all_persons (the source passes no `skip`/`limit`,
so the defaults `0`/`100` apply), run the matcher, persist the scores with
crud.update_match_scores, and return the match results. -/
noncomputable def match_requirements_with_persons (tok : String → List String)
    (db : List Person) (requirements : String) (now : Nat) :
    List (String × ℝ) × List Person :=
  let all_persons := get_all_persons db
  let match_results := match_requirements tok requirements all_persons
  let score_dict := match_results
  (match_results, (update_match_scores db score_dict now).2)

/-! ### General lemmas about the resolver -/

/-- A single lookup step can only return a stored person. -/
lemma mem_of_lookup_step {db : List Person} {c : Prop} [Decidable c]
    {pr : Person → Bool} {x : Person}
    (h : (if c then db.find? pr else none) = some x) : x ∈ db := by
  split at h
  · exact List.mem_of_find?_eq_some h
  · cases h

/-- The identifier lookup only returns stored persons. -/
lemma mem_of_find_person_by_identifiers {db : List Person} {ids : Identifiers}
    {p : Person} (h : find_person_by_identifiers db ids = some p) : p ∈ db := by
  unfold find_person_by_identifiers at h
  split at h
  next heq =>
    cases h
    exact mem_of_lookup_step heq
  next =>
    split at h
    next heq =>
      cases h
      exact mem_of_lookup_step heq
    next =>
      split at h
      next heq =>
        cases h
        exact mem_of_lookup_step heq
      next =>
        exact mem_of_lookup_step h

/-- In a store with distinct primary keys, the fetch-by-id of a stored
person returns that person. -/
lemma find?_id_of_nodup {db : List Person} {p : Person}
    (hnodup : (db.map Person.id).Nodup) (hp : p ∈ db) :
    db.find? (fun q => q.id == p.id) = some p := by
  induction db with
  | nil => cases hp
  | cons q rest ih =>
    rw [List.find?_cons]
    by_cases h : (q.id == p.id) = true
    · rw [h]
      have : q = p :=
        List.inj_on_of_nodup_map hnodup (List.mem_cons_self q rest) hp
          (beq_iff_eq.mp h)
      rw [this]
    · rw [Bool.not_eq_true] at h
      rw [h]
      rcases List.mem_cons.mp hp with rfl | hp'
      · simp at h
      · exact ih ((List.nodup_cons.mp hnodup).2) hp'

/-- Resolving a record that matches stored person `ex` (in a store with
distinct primary keys) updates exactly the rows with `ex`'s id by applying
the merged dict, and the updated row derived from `ex` is in the new
store; the returned id is `ex.id`. -/
lemma save_found_update {db : List Person} {pd : PersonData} {fid : String}
    {now : Nat} {ex : Person} {rid : String} {db' : List Person}
    (hnodup : (db.map Person.id).Nodup)
    (hfind : find_person_by_identifiers db (identifiersOf pd) = some ex)
    (hsave : save_person_to_db db pd fid now = (some rid, db')) :
    rid = ex.id ∧
    db' = db.map (fun q =>
      if q.id == ex.id then applyUpdate q (mergedData ex pd) now else q) ∧
    applyUpdate ex (mergedData ex pd) now ∈ db' := by
  have hex : ex ∈ db := mem_of_find_person_by_identifiers hfind
  have hfid : db.find? (fun p => p.id == ex.id) = some ex :=
    find?_id_of_nodup hnodup hex
  have hEq : save_person_to_db db pd fid now =
      (match update_person db ex.id (mergedData ex pd) now with
       | Except.ok (some updated, dbn) => (some updated.id, dbn)
       | Except.ok (none, dbn) => (none, dbn)
       | Except.error _ => (none, db)) := by
    unfold save_person_to_db
    rw [hfind]
  have hEq2 : update_person db ex.id (mergedData ex pd) now =
      (if updateViolation db ex (applyUpdate ex (mergedData ex pd) now) = true then
        Except.error ()
       else if (applyUpdate ex (mergedData ex pd) now).full_name.isNone = true then
        Except.error ()
       else
        Except.ok (some (applyUpdate ex (mergedData ex pd) now),
          db.map (fun q =>
            if q.id == ex.id then applyUpdate q (mergedData ex pd) now else q))) := by
    unfold update_person
    rw [hfid]
  rw [hEq, hEq2] at hsave
  by_cases hv : updateViolation db ex (applyUpdate ex (mergedData ex pd) now) = true
  · rw [if_pos hv] at hsave
    simp at hsave
  · rw [if_neg hv] at hsave
    by_cases hn : (applyUpdate ex (mergedData ex pd) now).full_name.isNone = true
    · rw [if_pos hn] at hsave
      simp at hsave
    · rw [if_neg hn] at hsave
      replace hsave :
          (some (applyUpdate ex (mergedData ex pd) now).id,
           db.map (fun q =>
             if q.id == ex.id then applyUpdate q (mergedData ex pd) now else q)) =
          (some rid, db') := hsave
      rw [Prod.mk.injEq, Option.some.injEq] at hsave
      obtain ⟨hrid, hdb⟩ := hsave
      refine ⟨hrid.symm, hdb.symm, ?_⟩
      rw [← hdb]
      have := List.mem_map_of_mem
        (fun q => if q.id == ex.id then applyUpdate q (mergedData ex pd) now else q) hex
      simpa using this

/-- The summary field of the merged dict: the blank-line concatenation
when both summaries are truthy, the incoming value unchanged otherwise. -/
lemma mergedData_experience_summary (ex : Person) (pd : PersonData) :
    (mergedData ex pd).experience_summary =
      if truthyS pd.experience_summary.join && truthyS ex.experience_summary then
        some (some ((ex.experience_summary.getD "") ++ "\n\n" ++
          ((pd.experience_summary.join).getD "")))
      else pd.experience_summary := by
  unfold mergedData
  cases hc : truthyS pd.experience_summary.join && truthyS ex.experience_summary <;>
    cases he : ex.is_engineer <;> cases hr : ex.is_researcher <;>
    simp only [Bool.false_eq_true, if_true, if_false, reduceIte] <;>
    (cases hd : pd.data_sources with
     | none => simp [hd]
     | some l => cases hl : l.isEmpty <;> simp [hd, hl])

/-- The data-sources field of the merged dict. -/
lemma mergedData_data_sources (ex : Person) (pd : PersonData) :
    (mergedData ex pd).data_sources =
      match pd.data_sources with
      | some l =>
        if l.isEmpty then some l
        else some (sourcesUnion (ex.data_sources.getD []) l)
      | none => none := by
  unfold mergedData
  cases hc : truthyS pd.experience_summary.join && truthyS ex.experience_summary <;>
    cases he : ex.is_engineer <;> cases hr : ex.is_researcher <;>
    simp only [Bool.false_eq_true, if_true, if_false, reduceIte] <;>
    (cases hd : pd.data_sources with
     | none => simp [hd]
     | some l => cases hl : l.isEmpty <;> simp [hd, hl])

/-- Unfolding one step of the data-source union loop. -/
lemma sourcesUnion_cons (ex : List String) (s : String) (l : List String) :
    sourcesUnion ex (s :: l) =
      sourcesUnion (if s ∈ ex then ex else ex ++ [s]) l := rfl

/-- The union loop only appends: the existing list is a prefix of the
result. -/
lemma sourcesUnion_extends (ex l : List String) :
    ∃ r, sourcesUnion ex l = ex ++ r := by
  induction l generalizing ex with
  | nil => exact ⟨[], by simp [sourcesUnion]⟩
  | cons s l ih =>
    rw [sourcesUnion_cons]
    by_cases h : s ∈ ex
    · rw [if_pos h]
      exact ih ex
    · rw [if_neg h]
      obtain ⟨r, hr⟩ := ih (ex ++ [s])
      exact ⟨s :: r, by rw [hr, List.append_assoc]; rfl⟩

/-- The union loop computes exactly the union of the two source lists. -/
lemma mem_sourcesUnion (ex l : List String) (x : String) :
    x ∈ sourcesUnion ex l ↔ x ∈ ex ∨ x ∈ l := by
  induction l generalizing ex with
  | nil => simp [sourcesUnion]
  | cons s l ih =>
    rw [sourcesUnion_cons]
    by_cases h : s ∈ ex
    · rw [if_pos h, ih]
      constructor
      · rintro (hx | hx)
        · exact Or.inl hx
        · exact Or.inr (List.mem_cons_of_mem s hx)
      · rintro (hx | hx)
        · exact Or.inl hx
        · rcases List.mem_cons.mp hx with rfl | hx
          · exact Or.inl h
          · exact Or.inr hx
    · rw [if_neg h, ih]
      simp [List.mem_append, List.mem_cons]
      tauto

/-- The union loop introduces no duplicates. -/
lemma nodup_sourcesUnion (ex l : List String) (h : ex.Nodup) :
    (sourcesUnion ex l).Nodup := by
  induction l generalizing ex with
  | nil => exact h
  | cons s l ih =>
    rw [sourcesUnion_cons]
    by_cases hs : s ∈ ex
    · rw [if_pos hs]
      exact ih ex h
    · rw [if_neg hs]
      refine ih (ex ++ [s]) ?_
      simp [List.nodup_append, h, hs]

/-- Rows produced by one score update keep their primary key. -/
def scoreTouch (e : String × ℝ) (now : Nat) (p : Person) : Person :=
  if p.id == e.1 then
    { p with match_score := some e.2, last_updated_at := now }
  else p

/-- The cumulative effect of the score-update loop on one row: the row
gets the score of its dict entry (and the commit timestamp) when its id
has one, and is untouched otherwise. -/
def applyScores (sd : List (String × ℝ)) (now : Nat) (p : Person) : Person :=
  match sd.find? (fun e => e.1 == p.id) with
  | some e => { p with match_score := some e.2, last_updated_at := now }
  | none => p

/-- Mapping an id-preserving function over the store does not change
whether a fetch by id succeeds. -/
lemma find?_id_isSome_map {f : Person → Person} (hf : ∀ p, (f p).id = p.id)
    (db : List Person) (x : String) :
    ((db.map f).find? (fun p => p.id == x)).isSome =
      (db.find? (fun p => p.id == x)).isSome := by
  induction db with
  | nil => rfl
  | cons q rest ih =>
    simp only [List.map_cons, List.find?_cons, hf q]
    cases hq : (q.id == x) with
    | true => simp
    | false => simpa using ih

lemma scoreTouch_id (e : String × ℝ) (now : Nat) (p : Person) :
    (scoreTouch e now p).id = p.id := by
  unfold scoreTouch
  by_cases h : (p.id == e.1) = true
  · rw [if_pos h]
  · rw [Bool.not_eq_true] at h
    rw [h]
    simp

/-- Full characterisation of crud.update_match_scores' loop, for a dict
with distinct keys and an arbitrary starting count: each row whose id has
an entry gets that entry's score and the commit timestamp, every other row
is untouched, and the count grows by the number of entries whose id exists
in the store. -/
lemma foldl_scoreStep (now : Nat) (sd : List (String × ℝ)) :
    ∀ (db : List Person) (c : Nat), (sd.map Prod.fst).Nodup →
    sd.foldl (scoreStep now) (c, db) =
      (c + (sd.filter (fun e => (get_person_by_id db e.1).isSome)).length,
       db.map (applyScores sd now)) := by
  induction sd with
  | nil =>
    intro db c _
    rw [Prod.mk.injEq]
    constructor
    · simp
    · have h := List.map_congr_left (fun (p : Person) (_ : p ∈ db) =>
        show applyScores [] now p = p by
          unfold applyScores
          rw [List.find?_nil])
      rw [h]
      simp
  | cons e sd ih =>
    intro db c hnodup
    have hnd1 : e.1 ∉ sd.map Prod.fst := (List.nodup_cons.mp hnodup).1
    have hnd2 : (sd.map Prod.fst).Nodup := (List.nodup_cons.mp hnodup).2
    rw [List.foldl_cons]
    by_cases hfound : (get_person_by_id db e.1).isSome = true
    · have hstep : scoreStep now (c, db) e = (c + 1, db.map (scoreTouch e now)) := by
        unfold scoreStep scoreTouch
        rw [if_pos hfound]
      rw [hstep, ih _ _ hnd2, Prod.mk.injEq]
      constructor
      · rw [List.filter_cons, if_pos (by simpa using hfound)]
        have hsame : ∀ x ∈ sd, ((fun y => (get_person_by_id (db.map (scoreTouch e now)) y.1).isSome) x) = ((fun y => (get_person_by_id db y.1).isSome) x) := by
          intro x _
          exact find?_id_isSome_map (scoreTouch_id e now) db x.1
        rw [List.filter_congr hsame]
        simp only [List.length_cons]
        omega
      · rw [List.map_map]
        refine List.map_congr_left (fun p hp => ?_)
        simp only [Function.comp_apply]
        by_cases hpe : (p.id == e.1) = true
        · have hid : e.1 = p.id := (beq_iff_eq.mp hpe).symm
          have htouch : scoreTouch e now p =
              { p with match_score := some e.2, last_updated_at := now } := by
            unfold scoreTouch
            rw [if_pos hpe]
          rw [htouch]
          have hpred : (fun x : String × ℝ => x.1 ==
              ({ p with match_score := some e.2, last_updated_at := now } : Person).id) =
              (fun x : String × ℝ => x.1 == p.id) := rfl
          have hfindsd : sd.find? (fun x => x.1 == p.id) = none := by
            rw [List.find?_eq_none]
            intro x hx hbeq
            exact hnd1 (by
              rw [hid, ← beq_iff_eq.mp hbeq]
              exact List.mem_map_of_mem Prod.fst hx)
          have h1 : applyScores sd now
              ({ p with match_score := some e.2, last_updated_at := now }) =
              { p with match_score := some e.2, last_updated_at := now } := by
            unfold applyScores
            rw [hpred, hfindsd]
          have h2 : applyScores (e :: sd) now p =
              { p with match_score := some e.2, last_updated_at := now } := by
            unfold applyScores
            rw [List.find?_cons, beq_iff_eq.mpr hid]
          rw [h1, h2]
        · have htouch : scoreTouch e now p = p := by
            unfold scoreTouch
            rw [Bool.not_eq_true] at hpe
            rw [hpe]
            simp
          rw [htouch]
          have hne : (e.1 == p.id) = false := by
            cases hb : (e.1 == p.id) with
            | false => rfl
            | true => exact absurd (beq_iff_eq.mpr (beq_iff_eq.mp hb).symm) hpe
          have h2 : applyScores (e :: sd) now p = applyScores sd now p := by
            unfold applyScores
            rw [List.find?_cons, hne]
          rw [h2]
    · rw [Bool.not_eq_true] at hfound
      have hstep : scoreStep now (c, db) e = (c, db) := by
        unfold scoreStep
        rw [hfound]
        simp
      rw [hstep, ih _ _ hnd2, Prod.mk.injEq]
      have hnodb : ∀ p ∈ db, ¬(e.1 == p.id) = true := by
        intro p hp hbeq
        unfold get_person_by_id at hfound
        cases hfind : db.find? (fun q => q.id == e.1) with
        | some q =>
          rw [hfind] at hfound
          cases hfound
        | none =>
          rw [List.find?_eq_none] at hfind
          exact hfind p hp (beq_iff_eq.mpr (beq_iff_eq.mp hbeq).symm)
      constructor
      · rw [List.filter_cons, if_neg (by simp [hfound])]
      · refine List.map_congr_left (fun p hp => ?_)
        have hne : (e.1 == p.id) = false := by
          cases hb : (e.1 == p.id) with
          | false => rfl
          | true => exact absurd hb (hnodb p hp)
        have h2 : applyScores (e :: sd) now p = applyScores sd now p := by
          unfold applyScores
          rw [List.find?_cons, hne]
        rw [h2]

/-! ### Claim C1: fallthrough of the identifier lookup -/

/-- Stored person for the C1 scenario: holds github username "g" and no
email. -/
def c1p2 : Person :=
  { id := "2", full_name := some "B", github_username := some "g" }

/-- C1 store: just `c1p2`. -/
def c1db : List Person := [c1p2]

/-- C1 record: a non-empty email nobody has, plus `c1p2`'s github
username. -/
def c1ids : Identifiers := { email := some "a@x", github_username := some "g" }

/-- C1: counterexample.  The record carries non-empty email "a@x", no
stored person has that email — yet the lookup does not return "no match":
it consults github_username and returns person "2".
crud.find_person_by_identifiers falls through on a failed higher-priority
lookup, contrary to the claim. -/
theorem c1_counterexample_fallthrough_on_failed_email :
    truthyS c1ids.email = true ∧
    (∀ p ∈ c1db, p.email ≠ c1ids.email) ∧
    find_person_by_identifiers c1db c1ids = some c1p2 := by
  refine ⟨rfl, ?_, rfl⟩
  intro p hp h
  rw [c1db, List.mem_singleton] at hp
  subst hp
  cases h

/-- C1 (amended): the identifier lookup tries each identifier the record
carries in priority order, but a failed email lookup falls through
instead of stopping: when the record has a non-empty email that no stored
person has, the lookup behaves exactly as if the record carried no email,
and the remaining identifiers are still consulted in order. -/
theorem c1_failed_email_lookup_falls_through
    (db : List Person) (ids : Identifiers)
    (he : truthyS ids.email = true)
    (hmiss : ∀ p ∈ db, p.email ≠ ids.email) :
    find_person_by_identifiers db ids =
      find_person_by_identifiers db { ids with email := none } := by
  have h1 : db.find? (fun p => p.email == ids.email) = none := by
    rw [List.find?_eq_none]
    intro p hp hbeq
    exact hmiss p hp (beq_iff_eq.mp hbeq)
  unfold find_person_by_identifiers
  rw [if_pos he, h1]
  rfl

/-- C1 (amended) witness at the concrete C1 scenario. -/
theorem c1_failed_email_lookup_falls_through_witness :
    truthyS c1ids.email = true ∧
    (∀ p ∈ c1db, p.email ≠ c1ids.email) ∧
    find_person_by_identifiers c1db c1ids =
      find_person_by_identifiers c1db { c1ids with email := none } := by
  have hmiss : ∀ p ∈ c1db, p.email ≠ c1ids.email := by
    intro p hp h
    rw [c1db, List.mem_singleton] at hp
    subst hp
    cases h
  exact ⟨rfl, hmiss, c1_failed_email_lookup_falls_through c1db c1ids rfl hmiss⟩

/-! ### Claim C2: email precedes github_username -/

/-- C2: when the record's non-empty email is held by stored person `p1`
and by nobody else, resolution returns `p1`; in particular it never
returns any other person, such as the owner of the record's
github_username. -/
theorem c2_email_owner_wins
    (db : List Person) (ids : Identifiers) (p1 : Person) (e : String)
    (he : ids.email = some e) (hne : e ≠ "")
    (hp1 : p1 ∈ db) (hp1e : p1.email = some e)
    (huniq : ∀ q ∈ db, q.email = some e → q = p1) :
    find_person_by_identifiers db ids = some p1 ∧
    ∀ p2 : Person, p2 ≠ p1 → find_person_by_identifiers db ids ≠ some p2 := by
  have htr : truthyS ids.email = true := by
    rw [he]
    simp [truthyS, hne]
  have hfind : db.find? (fun p => p.email == ids.email) = some p1 := by
    cases hq : db.find? (fun p => p.email == ids.email) with
    | none =>
      rw [List.find?_eq_none] at hq
      exact absurd (show (p1.email == ids.email) = true by
        rw [hp1e, he]
        exact beq_self_eq_true _) (hq p1 hp1)
    | some q =>
      have hmem := List.mem_of_find?_eq_some hq
      have hpq := List.find?_some hq
      rw [he] at hpq
      rw [huniq q hmem (beq_iff_eq.mp hpq)]
  have hmain : find_person_by_identifiers db ids = some p1 := by
    unfold find_person_by_identifiers
    rw [if_pos htr, hfind]
  refine ⟨hmain, fun p2 h2 hc => h2 ?_⟩
  rw [hmain, Option.some.injEq] at hc
  exact hc.symm

/-- C2 scenario: the github owner, stored first. -/
def c2gh : Person :=
  { id := "g1", full_name := some "G", github_username := some "g" }

/-- C2 scenario: the email owner, stored second. -/
def c2owner : Person :=
  { id := "e1", full_name := some "E", email := some "a@x" }

/-- C2 store. -/
def c2db : List Person := [c2gh, c2owner]

/-- C2 record: carries both identifiers, owned by two different stored
persons. -/
def c2ids : Identifiers := { email := some "a@x", github_username := some "g" }

/-- C2 witness: with the email owned by person "e1" and the github
username by person "g1", resolution returns "e1" and never "g1". -/
theorem c2_email_owner_wins_witness :
    c2ids.email = some "a@x" ∧
    c2owner ∈ c2db ∧ c2owner.email = some "a@x" ∧
    c2gh ∈ c2db ∧ c2gh.github_username = c2ids.github_username ∧
    c2gh ≠ c2owner ∧
    (find_person_by_identifiers c2db c2ids = some c2owner ∧
     ∀ p2 : Person, p2 ≠ c2owner →
       find_person_by_identifiers c2db c2ids ≠ some p2) := by
  have huniq : ∀ q ∈ c2db, q.email = some "a@x" → q = c2owner := by
    intro q hq hqe
    rw [c2db] at hq
    rcases List.mem_cons.mp hq with rfl | hq
    · cases hqe
    · rw [List.mem_singleton] at hq
      exact hq
  refine ⟨rfl, ?_, rfl, ?_, rfl, ?_, ?_⟩
  · exact List.mem_cons_of_mem _ (List.mem_singleton.mpr rfl)
  · exact List.mem_cons_self _ _
  · intro h
    exact absurd (congrArg Person.id h) (by decide)
  · exact c2_email_owner_wins c2db c2ids c2owner "a@x" rfl (by decide)
      (List.mem_cons_of_mem _ (List.mem_singleton.mpr rfl)) rfl huniq

/-! ### Claim C3: which identifiers the schema keeps unique -/

/-- The uniqueness invariant the storage schema actually enforces:
pairwise distinct non-null values in each of the three UNIQUE columns
`github_username`, `qiita_id`, `orcid_id`. -/
def SchemaUnique (db : List Person) : Prop :=
  db.Pairwise (fun p q =>
    (p.github_username.isSome → p.github_username ≠ q.github_username) ∧
    (p.qiita_id.isSome → p.qiita_id ≠ q.qiita_id) ∧
    (p.orcid_id.isSome → p.orcid_id ≠ q.orcid_id))

/-- C3 scenario: stored person with email "a@x". -/
def c3pA : Person := { id := "a", full_name := some "A", email := some "a@x" }

/-- C3 scenario: a second person with the same email. -/
def c3pB : Person := { id := "b", full_name := some "B", email := some "a@x" }

/-- C3: counterexample.  Two persons with the same non-null email: the
schema accepts the insert of the second, because `email` has no unique
constraint in src/database/models.py — only `github_username`, `qiita_id`
and `orcid_id` are unique. -/
theorem c3_counterexample_duplicate_email_accepted :
    c3pA.email = some "a@x" ∧ c3pB.email = some "a@x" ∧
    create_person [c3pA] c3pB = .ok (c3pB, [c3pA, c3pB]) :=
  ⟨rfl, rfl, rfl⟩

/-- C3 (amended): the repository layer keeps `orcid_id`,
`github_username` and `qiita_id` unique among non-null values — a create
duplicating any of them is rejected by the schema and a successful create
preserves the invariant — but `email` carries no uniqueness constraint. -/
theorem c3_schema_unique_non_email_identifiers
    (db : List Person) (p : Person) (hdb : SchemaUnique db) :
    (∀ p' db', create_person db p = .ok (p', db') → SchemaUnique db') ∧
    (((∃ q ∈ db, q.github_username.isSome ∧ q.github_username = p.github_username) ∨
      (∃ q ∈ db, q.qiita_id.isSome ∧ q.qiita_id = p.qiita_id) ∨
      (∃ q ∈ db, q.orcid_id.isSome ∧ q.orcid_id = p.orcid_id)) →
      create_person db p = .error ()) := by
  constructor
  · intro p' db' h
    unfold create_person at h
    by_cases h1 : p.full_name.isNone = true
    · rw [if_pos h1] at h
      cases h
    · rw [if_neg h1] at h
      by_cases h2 : insertViolation db p = true
      · rw [if_pos h2] at h
        cases h
      · rw [if_neg h2] at h
        injection h with h
        rw [Prod.mk.injEq] at h
        rw [← h.2]
        have hnov : ∀ q ∈ db,
            ¬(p.id == q.id ||
              dupOpt p.github_username q.github_username ||
              dupOpt p.qiita_id q.qiita_id ||
              dupOpt p.orcid_id q.orcid_id) = true := by
          intro q hq hcon
          exact h2 (by
            unfold insertViolation
            rw [List.any_eq_true]
            exact ⟨q, hq, hcon⟩)
        unfold SchemaUnique
        rw [List.pairwise_append]
        refine ⟨hdb, List.pairwise_singleton _ _, ?_⟩
        intro a ha b hb
        rw [List.mem_singleton] at hb
        subst hb
        have hno := hnov a ha
        simp only [Bool.or_eq_true, not_or] at hno
        refine ⟨?_, ?_, ?_⟩
        · intro hs heq
          refine hno.1.1.2 ?_
          unfold dupOpt
          rw [Bool.and_eq_true, beq_iff_eq]
          exact ⟨heq ▸ hs, heq.symm⟩
        · intro hs heq
          refine hno.1.2 ?_
          unfold dupOpt
          rw [Bool.and_eq_true, beq_iff_eq]
          exact ⟨heq ▸ hs, heq.symm⟩
        · intro hs heq
          refine hno.2 ?_
          unfold dupOpt
          rw [Bool.and_eq_true, beq_iff_eq]
          exact ⟨heq ▸ hs, heq.symm⟩
  · intro hdup
    unfold create_person
    by_cases h1 : p.full_name.isNone = true
    · rw [if_pos h1]
    · rw [if_neg h1]
      have hviol : insertViolation db p = true := by
        unfold insertViolation
        rw [List.any_eq_true]
        rcases hdup with ⟨q, hq, hqs, hqe⟩ | ⟨q, hq, hqs, hqe⟩ | ⟨q, hq, hqs, hqe⟩ <;>
          refine ⟨q, hq, ?_⟩ <;>
          simp only [Bool.or_eq_true, dupOpt, Bool.and_eq_true, beq_iff_eq] <;>
          rw [← hqe]
        · exact Or.inl (Or.inl (Or.inr ⟨hqs, rfl⟩))
        · exact Or.inl (Or.inr ⟨hqs, rfl⟩)
        · exact Or.inr ⟨hqs, rfl⟩
      rw [if_pos hviol]

/-- C3 witness store: one person holding all three unique identifiers. -/
def c3w1 : Person :=
  { id := "w1", full_name := some "W", github_username := some "g",
    qiita_id := some "q", orcid_id := some "o" }

/-- C3 witness insert: duplicates the stored github username. -/
def c3w2 : Person := { id := "w2", full_name := some "V", github_username := some "g" }

/-- C3 (amended) witness: the concrete store satisfies the invariant and
the duplicate-github insert is rejected. -/
theorem c3_schema_unique_non_email_identifiers_witness :
    SchemaUnique [c3w1] ∧
    ((∀ p' db', create_person [c3w1] c3w2 = .ok (p', db') → SchemaUnique db') ∧
     (((∃ q ∈ [c3w1], q.github_username.isSome ∧ q.github_username = c3w2.github_username) ∨
       (∃ q ∈ [c3w1], q.qiita_id.isSome ∧ q.qiita_id = c3w2.qiita_id) ∨
       (∃ q ∈ [c3w1], q.orcid_id.isSome ∧ q.orcid_id = c3w2.orcid_id)) →
       create_person [c3w1] c3w2 = .error ())) := by
  have hdb : SchemaUnique [c3w1] := List.pairwise_singleton _ _
  exact ⟨hdb, c3_schema_unique_non_email_identifiers [c3w1] c3w2 hdb⟩

/-! ### Claim C6: constraint violation on create is not retried as update -/

/-- C6 scenario: stored person holding qiita_id "q1" — an identifier the
lookup of crud.find_person_by_identifiers never consults. -/
def c6ex : Person :=
  { id := "1", full_name := some "A", qiita_id := some "q1",
    current_affiliation := some "X" }

/-- C6 scenario: incoming record with the same qiita_id but no identifier
the lookup would hit. -/
def c6pd : PersonData :=
  { full_name := some "B", qiita_id := some (some "q1"),
    experience_summary := some (some "s") }

/-- C6: counterexample.  The lookup misses, the create violates the
qiita_id uniqueness constraint, and the resolver drops the record: the
store is unchanged and no id is returned — the operation is *not* retried
as an update of the existing person. -/
theorem c6_counterexample_violation_drops_record :
    find_person_by_identifiers [c6ex] (identifiersOf c6pd) = none ∧
    create_person [c6ex] (personOfData (withDefaultSources c6pd) "fresh" 7) =
      .error () ∧
    save_person_to_db [c6ex] c6pd "fresh" 7 = (none, [c6ex]) :=
  ⟨rfl, rfl, rfl⟩

/-- C6 (amended): a uniqueness-constraint violation on create is caught
like any persistence error: the write is rolled back, the record is
dropped (no id returned, store unchanged), no error surfaces — and no
retry as an update happens. -/
theorem c6_violation_on_create_drops_record
    (db : List Person) (pd : PersonData) (freshId : String) (now : Nat)
    (hfind : find_person_by_identifiers db (identifiersOf pd) = none)
    (hcreate : create_person db (personOfData (withDefaultSources pd) freshId now) =
      .error ()) :
    save_person_to_db db pd freshId now = (none, db) := by
  unfold save_person_to_db
  rw [hfind, hcreate]

/-- C6 (amended) witness at the concrete qiita_id-duplicate scenario. -/
theorem c6_violation_on_create_drops_record_witness :
    find_person_by_identifiers [c6ex] (identifiersOf c6pd) = none ∧
    create_person [c6ex] (personOfData (withDefaultSources c6pd) "id2" 9) =
      .error () ∧
    save_person_to_db [c6ex] c6pd "id2" 9 = (none, [c6ex]) :=
  ⟨rfl, rfl, c6_violation_on_create_drops_record [c6ex] c6pd "id2" 9 rfl rfl⟩

/-! ### Claim C7: experience summary concatenation on merge -/

/-- C7 scenario: matched person with non-empty stored summary "A". -/
def c7ex : Person :=
  { id := "e1", full_name := some "N", github_username := some "g",
    experience_summary := some "A" }

/-- C7 scenario: incoming record matching on github, carrying an *empty*
summary value. -/
def c7pd : PersonData :=
  { full_name := some "N2", github_username := some (some "g"),
    experience_summary := some (some "") }

/-- C7: counterexample.  Merging a record whose experience_summary value
is empty does not append: the empty value overwrites the stored summary
"A" — the stored summary *is* truncated by this merge. -/
theorem c7_counterexample_truncation :
    c7ex.experience_summary = some "A" ∧
    (save_person_to_db [c7ex] c7pd "f" 9).1 = some "e1" ∧
    (save_person_to_db [c7ex] c7pd "f" 9).2.map Person.experience_summary =
      [some ""] :=
  ⟨rfl, rfl, rfl⟩

/-- C7 (amended): whenever both the stored and the incoming summaries are
non-empty, the merged person's experience_summary is the stored text
followed by the incoming text separated by a blank line. -/
theorem c7_summary_concat_when_both_nonempty
    (db : List Person) (pd : PersonData) (fid : String) (now : Nat)
    (ex : Person) (rid : String) (db' : List Person) (s t : String)
    (hnodup : (db.map Person.id).Nodup)
    (hfind : find_person_by_identifiers db (identifiersOf pd) = some ex)
    (hs : ex.experience_summary = some s) (hs' : s ≠ "")
    (ht : pd.experience_summary = some (some t)) (ht' : t ≠ "")
    (hsave : save_person_to_db db pd fid now = (some rid, db')) :
    ∃ q ∈ db', q.id = ex.id ∧
      q.experience_summary = some (s ++ "\n\n" ++ t) := by
  obtain ⟨-, -, hmem⟩ := save_found_update hnodup hfind hsave
  refine ⟨applyUpdate ex (mergedData ex pd) now, hmem, rfl, ?_⟩
  show setOpt (mergedData ex pd).experience_summary ex.experience_summary = _
  rw [mergedData_experience_summary]
  rw [ht, hs]
  rw [if_pos (by simp [truthyS, ht', hs'])]
  rfl

/-- C7 (amended) witness scenario: both summaries non-empty. -/
def c7wpd : PersonData :=
  { full_name := some "N2", github_username := some (some "g"),
    experience_summary := some (some "B") }

/-- C7 (amended) witness: merging summary "B" into stored summary "A"
yields "A", blank line, "B". -/
theorem c7_summary_concat_when_both_nonempty_witness :
    ([c7ex].map Person.id).Nodup ∧
    find_person_by_identifiers [c7ex] (identifiersOf c7wpd) = some c7ex ∧
    c7ex.experience_summary = some "A" ∧
    c7wpd.experience_summary = some (some "B") ∧
    ∃ q ∈ (save_person_to_db [c7ex] c7wpd "f" 3).2, q.id = c7ex.id ∧
      q.experience_summary = some ("A" ++ "\n\n" ++ "B") := by
  refine ⟨by decide, rfl, rfl, rfl, ?_⟩
  exact c7_summary_concat_when_both_nonempty [c7ex] c7wpd "f" 3 c7ex "e1"
    ((save_person_to_db [c7ex] c7wpd "f" 3).2) "A" "B"
    (by decide) rfl rfl (by decide) rfl (by decide) rfl

/-! ### Claim C8: data-source union on merge

src/database/models.py maps no `data_sources` column on the `Person`
mapper — src/database/migration.py only ALTERs the raw SQLite table.  In
the staged program this has three consequences, modelled by the `Staged`
definitions below: (i) in the merge branch, the read of
`existing_person.data_sources` at collector.py:280 — reached exactly when
the incoming dict carries a non-empty `data_sources` list, as every
collector code path arranges — raises `AttributeError`, the generic
`except` rolls back and the record is dropped, so the source union the
loop goes on to compute is never executed; (ii) crud.update_person's
`setattr` of the unmapped attribute persists nothing to the row; (iii) in
the create branch `Person(**person_data)` raises `TypeError` for the
`data_sources` key, which the branch always includes after defaulting it
to `[]`, so the create is dropped too.  The `Person.data_sources` field of
this embedding stands for the raw-table column, which the staged ORM can
therefore never write. -/

/-- crud.update_person's `setattr` loop as the staged mapper executes it:
identical to `applyUpdate` except that the assignment to the unmapped
`data_sources` attribute persists nothing to the row. -/
def applyUpdateStaged (p : Person) (d : PersonData) (now : Nat) : Person :=
  { applyUpdate p d now with data_sources := p.data_sources }

/-- crud.update_person on the staged mapper. -/
def update_person_staged (db : List Person) (person_id : String)
    (d : PersonData) (now : Nat) : Except Unit (Option Person × List Person) :=
  match db.find? (fun p => p.id == person_id) with
  | none => .ok (none, db)
  | some p =>
    if updateViolation db p (applyUpdateStaged p d now) then .error ()
    else if (applyUpdateStaged p d now).full_name.isNone then .error ()
    else .ok (some (applyUpdateStaged p d now), db.map (fun q =>
      if q.id == person_id then applyUpdateStaged q d now else q))

/-- collector._save_person_to_db as the staged program executes it: a
merge whose incoming dict carries a non-empty `data_sources` list is
dropped by the `AttributeError` at collector.py:280 before any write, and
the create branch is always dropped by the `TypeError` from
`Person(**person_data)`; the remaining merges go through the staged
update. -/
def save_person_to_db_staged (db : List Person) (pd : PersonData)
    (_freshId : String) (now : Nat) : Option String × List Person :=
  match find_person_by_identifiers db (identifiersOf pd) with
  | some existing =>
    match pd.data_sources with
    | some new_sources =>
      if new_sources.isEmpty then
        match update_person_staged db existing.id (mergedData existing pd) now with
        | .ok (some updated, db') => (some updated.id, db')
        | .ok (none, db') => (none, db')
        | .error _ => (none, db)
      else (none, db)
    | none =>
      match update_person_staged db existing.id (mergedData existing pd) now with
      | .ok (some updated, db') => (some updated.id, db')
      | .ok (none, db') => (none, db')
      | .error _ => (none, db)
  | none => (none, db)

/-- A successful staged update leaves every row's (unmapped, hence
unwritable) data_sources column unchanged. -/
lemma update_person_staged_sources (db : List Person) (person_id : String)
    (d : PersonData) (now : Nat) (p : Option Person) (db' : List Person)
    (h : update_person_staged db person_id d now = .ok (p, db')) :
    db'.map Person.data_sources = db.map Person.data_sources := by
  unfold update_person_staged at h
  split at h
  · injection h with h
    rw [Prod.mk.injEq] at h
    rw [← h.2]
  · split at h
    · cases h
    · split at h
      · cases h
      · injection h with h
        rw [Prod.mk.injEq] at h
        rw [← h.2, List.map_map]
        refine List.map_congr_left (fun q _ => ?_)
        simp only [Function.comp_apply]
        by_cases hq : (q.id == person_id) = true
        · rw [if_pos hq]
          rfl
        · rw [Bool.not_eq_true] at hq
          simp [hq]

/-- C8 scenario: matched person whose raw-table column holds ["github"]
(as the migration backfill would set it). -/
def c8ex : Person :=
  { id := "e1", full_name := some "N", github_username := some "g",
    data_sources := some ["github"] }

/-- C8 failing input: a collector-tagged incoming record carrying
data_sources ["qiita"]. -/
def c8pdQiita : PersonData :=
  { full_name := some "N", github_username := some (some "g"),
    data_sources := some ["qiita"] }

/-- C8: the staged code at the failing input, and in general.  No staged
resolver operation can ever change any stored person's data_sources — in
particular it never becomes the union — and at the failing input the
lookup matches the stored person tagged ["github"], yet the merge is
dropped (no id, store unchanged) instead of extending the list with
"qiita" as the claim requires. -/
theorem c8_staged_sources_never_written :
    (∀ (db : List Person) (pd : PersonData) (freshId : String) (now : Nat),
      (save_person_to_db_staged db pd freshId now).2.map Person.data_sources =
        db.map Person.data_sources) ∧
    c8ex.data_sources = some ["github"] ∧
    c8pdQiita.data_sources = some ["qiita"] ∧
    find_person_by_identifiers [c8ex] (identifiersOf c8pdQiita) = some c8ex ∧
    save_person_to_db_staged [c8ex] c8pdQiita "f" 9 = (none, [c8ex]) := by
  refine ⟨?_, rfl, rfl, rfl, rfl⟩
  intro db pd freshId now
  unfold save_person_to_db_staged
  split
  · split
    · split
      · split
        · next p db' heq => exact update_person_staged_sources _ _ _ _ _ _ heq
        · next db' heq => exact update_person_staged_sources _ _ _ _ _ _ heq
        · rfl
      · rfl
    · split
      · next p db' heq => exact update_person_staged_sources _ _ _ _ _ _ heq
      · next db' heq => exact update_person_staged_sources _ _ _ _ _ _ heq
      · rfl
  · rfl

/-! ### Claim C9: what update_match_scores touches -/

/-- C9 scenario: a stored person created at time 0 with no score. -/
def c9p : Person := { id := "p0", full_name := some "A", last_updated_at := 0 }

/-- C9: counterexample.  Updating the match score of person "p0" at time
5 also changes its `last_updated_at` field (0 becomes 5): the column's
`onupdate=func.now()` refreshes the timestamp on every update, so
`match_score` is *not* the only modified field. -/
theorem c9_counterexample_timestamp_refreshed :
    c9p.last_updated_at = 0 ∧
    (update_match_scores [c9p] [("p0", (1 : ℝ))] 5).1 = 1 ∧
    (update_match_scores [c9p] [("p0", (1 : ℝ))] 5).2.map
      Person.last_updated_at = [5] :=
  ⟨rfl, rfl, rfl⟩

/-- C9 (amended): for a score dict with distinct keys,
crud.update_match_scores rewrites each stored row by `applyScores` — a
row whose id has a dict entry gets exactly that score and the refreshed
`last_updated_at` timestamp, a row without an entry is returned as-is —
and the returned count is the number of dict entries whose id exists in
storage. -/
theorem c9_update_match_scores_frame
    (db : List Person) (score_dict : List (String × ℝ)) (now : Nat)
    (hnodup : (score_dict.map Prod.fst).Nodup) :
    (update_match_scores db score_dict now).1 =
      (score_dict.filter (fun e => (get_person_by_id db e.1).isSome)).length ∧
    (update_match_scores db score_dict now).2 = db.map (applyScores score_dict now) ∧
    (∀ p, score_dict.find? (fun e => e.1 == p.id) = none →
      applyScores score_dict now p = p) ∧
    (∀ p e, score_dict.find? (fun e => e.1 == p.id) = some e →
      applyScores score_dict now p =
        { p with match_score := some e.2, last_updated_at := now }) := by
  have h := foldl_scoreStep now score_dict db 0 hnodup
  refine ⟨?_, ?_, ?_, ?_⟩
  · unfold update_match_scores
    rw [h]
    exact Nat.zero_add _
  · unfold update_match_scores
    rw [h]
  · intro p hp
    unfold applyScores
    rw [hp]
  · intro p e hp
    unfold applyScores
    rw [hp]

/-- C9 (amended) witness scenario: a second person without a dict
entry. -/
def c9q : Person := { id := "p1", full_name := some "B", last_updated_at := 0 }

/-- C9 (amended) witness at the concrete two-person store. -/
theorem c9_update_match_scores_frame_witness :
    (([("p0", (2 : ℝ))] : List (String × ℝ)).map Prod.fst).Nodup ∧
    ((update_match_scores [c9p, c9q] [("p0", (2 : ℝ))] 5).1 =
      (([("p0", (2 : ℝ))] : List (String × ℝ)).filter
        (fun e => (get_person_by_id [c9p, c9q] e.1).isSome)).length ∧
     (update_match_scores [c9p, c9q] [("p0", (2 : ℝ))] 5).2 =
      [c9p, c9q].map (applyScores [("p0", (2 : ℝ))] 5) ∧
     (∀ p, ([("p0", (2 : ℝ))] : List (String × ℝ)).find?
        (fun e => e.1 == p.id) = none →
        applyScores [("p0", (2 : ℝ))] 5 p = p) ∧
     (∀ p e, ([("p0", (2 : ℝ))] : List (String × ℝ)).find?
        (fun e => e.1 == p.id) = some e →
        applyScores [("p0", (2 : ℝ))] 5 p =
          { p with match_score := some e.2, last_updated_at := 5 })) := by
  refine ⟨by decide, ?_⟩
  exact c9_update_match_scores_frame [c9p, c9q] [("p0", (2 : ℝ))] 5 (by decide)

/-! ### Claim C10: the three summary-merge cases -/

/-- C10: in the merge branch the summaries are concatenated only when
both are non-empty; an empty-or-absent stored summary is replaced by the
incoming value as-is, and an empty-or-null incoming value replaces the
stored summary. -/
theorem c10_summary_merge_cases
    (db : List Person) (pd : PersonData) (fid : String) (now : Nat)
    (ex : Person) (rid : String) (db' : List Person)
    (hnodup : (db.map Person.id).Nodup)
    (hfind : find_person_by_identifiers db (identifiersOf pd) = some ex)
    (hsave : save_person_to_db db pd fid now = (some rid, db')) :
    (∀ s t, ex.experience_summary = some s → s ≠ "" →
      pd.experience_summary = some (some t) → t ≠ "" →
      ∃ q ∈ db', q.id = ex.id ∧
        q.experience_summary = some (s ++ "\n\n" ++ t)) ∧
    ((ex.experience_summary = none ∨ ex.experience_summary = some "") →
      ∀ v, pd.experience_summary = some v →
      ∃ q ∈ db', q.id = ex.id ∧ q.experience_summary = v) ∧
    (∀ v, pd.experience_summary = some v → (v = none ∨ v = some "") →
      ∃ q ∈ db', q.id = ex.id ∧ q.experience_summary = v) := by
  obtain ⟨-, -, hmem⟩ := save_found_update hnodup hfind hsave
  have hproj : (applyUpdate ex (mergedData ex pd) now).experience_summary =
      setOpt (mergedData ex pd).experience_summary ex.experience_summary := rfl
  refine ⟨?_, ?_, ?_⟩
  · intro s t hs hs' ht ht'
    refine ⟨applyUpdate ex (mergedData ex pd) now, hmem, rfl, ?_⟩
    rw [hproj, mergedData_experience_summary, ht, hs]
    rw [if_pos (by simp [truthyS, ht', hs'])]
    rfl
  · intro hex v hv
    refine ⟨applyUpdate ex (mergedData ex pd) now, hmem, rfl, ?_⟩
    rw [hproj, mergedData_experience_summary]
    have hfalse : truthyS ex.experience_summary = false := by
      rcases hex with hex | hex <;> rw [hex] <;> rfl
    rw [if_neg (by rw [hfalse, Bool.and_false]; exact Bool.false_ne_true)]
    rw [hv]
    rfl
  · intro v hv hcases
    refine ⟨applyUpdate ex (mergedData ex pd) now, hmem, rfl, ?_⟩
    rw [hproj, mergedData_experience_summary]
    have hfalse : truthyS pd.experience_summary.join = false := by
      rw [hv]
      rcases hcases with rfl | rfl <;> rfl
    rw [if_neg (by rw [hfalse, Bool.false_and]; exact Bool.false_ne_true)]
    rw [hv]
    rfl

/-- C10 witness scenario: stored summary empty string, incoming summary
"B" — the incoming value is written as-is, no separator. -/
def c10ex : Person :=
  { id := "e1", full_name := some "N", github_username := some "g",
    experience_summary := some "" }

/-- C10 witness incoming record. -/
def c10pd : PersonData :=
  { full_name := some "N2", github_username := some (some "g"),
    experience_summary := some (some "B") }

/-- C10 witness at a concrete empty-stored-summary merge. -/
theorem c10_summary_merge_cases_witness :
    ([c10ex].map Person.id).Nodup ∧
    find_person_by_identifiers [c10ex] (identifiersOf c10pd) = some c10ex ∧
    c10ex.experience_summary = some "" ∧
    c10pd.experience_summary = some (some "B") ∧
    ((∀ s t, c10ex.experience_summary = some s → s ≠ "" →
       c10pd.experience_summary = some (some t) → t ≠ "" →
       ∃ q ∈ (save_person_to_db [c10ex] c10pd "f" 3).2, q.id = c10ex.id ∧
         q.experience_summary = some (s ++ "\n\n" ++ t)) ∧
     ((c10ex.experience_summary = none ∨ c10ex.experience_summary = some "") →
       ∀ v, c10pd.experience_summary = some v →
       ∃ q ∈ (save_person_to_db [c10ex] c10pd "f" 3).2, q.id = c10ex.id ∧
         q.experience_summary = v) ∧
     (∀ v, c10pd.experience_summary = some v → (v = none ∨ v = some "") →
       ∃ q ∈ (save_person_to_db [c10ex] c10pd "f" 3).2, q.id = c10ex.id ∧
         q.experience_summary = v)) := by
  refine ⟨by decide, rfl, rfl, rfl, ?_⟩
  exact c10_summary_merge_cases [c10ex] c10pd "f" 3 c10ex "e1"
    ((save_person_to_db [c10ex] c10pd "f" 3).2) (by decide) rfl rfl

/-! ### Claim C5: which persons a matching run scores -/

/-- Every id in a matching result is the id of one of the input persons
(in both the success and the caught-failure branch). -/
lemma match_requirements_ids_subset (tok : String → List String)
    (requirements : String) (persons : List Person) :
    ∀ x ∈ match_requirements tok requirements persons,
      x.1 ∈ persons.map Person.id := by
  intro x hx
  unfold match_requirements at hx
  split at hx
  · cases hx
  · unfold sortDescBySnd at hx
    rw [List.mem_mergeSort] at hx
    unfold matchPairs at hx
    split at hx
    · cases hx
    · rcases List.mem_map.mp hx with ⟨pr, hpr, rfl⟩
      exact List.mem_map_of_mem Person.id (List.of_mem_zip hpr).1

/-- C5 store population: person number `i`, with a distinct unary id. -/
def mkPersonC5 (i : Nat) : Person :=
  { id := String.mk (List.replicate i 'a'), full_name := some "x",
    experience_summary := some "python" }

/-- C5 store: 101 persons. -/
def c5db : List Person := (List.range 101).map mkPersonC5

lemma mkPersonC5_id_length (i : Nat) : (mkPersonC5 i).id.length = i := by
  unfold mkPersonC5
  rw [String.length_mk, List.length_replicate]

/-- C5: with 101 stored persons, the service's matching run never scores
the 101st person: recruitment_service.match_requirements_with_persons
fetches candidates through crud.get_all_persons with its default
`limit=100`, so the person beyond the first 100 receives no score — for
any requirement text and any tokenizer behaviour. -/
theorem c5_101st_person_never_scored (tok : String → List String)
    (requirements : String) (now : Nat) :
    mkPersonC5 100 ∈ c5db ∧
    mkPersonC5 100 ∉ get_all_persons c5db ∧
    ∀ pr ∈ (match_requirements_with_persons tok c5db requirements now).1,
      pr.1 ≠ (mkPersonC5 100).id := by
  have htake : get_all_persons c5db = (List.range 100).map mkPersonC5 := by
    unfold get_all_persons c5db
    rw [List.drop_zero, ← List.map_take, List.take_range]
    norm_num
  refine ⟨?_, ?_, ?_⟩
  · exact List.mem_map_of_mem mkPersonC5 (List.mem_range.mpr (by norm_num))
  · rw [htake]
    intro hmem
    rcases List.mem_map.mp hmem with ⟨i, hi, heq⟩
    have := congrArg (fun p => Person.id p |>.length) heq
    simp only [mkPersonC5_id_length] at this
    rw [this] at hi
    exact absurd (List.mem_range.mp hi) (by norm_num)
  · intro pr hpr heq
    have hsub : pr.1 ∈ (get_all_persons c5db).map Person.id := by
      have : (match_requirements_with_persons tok c5db requirements now).1 =
          match_requirements tok requirements (get_all_persons c5db) := rfl
      rw [this] at hpr
      exact match_requirements_ids_subset tok requirements _ pr hpr
    rw [htake, List.map_map] at hsub
    rcases List.mem_map.mp hsub with ⟨i, hi, hid⟩
    have hlen := congrArg String.length hid
    simp only [Function.comp_apply, mkPersonC5_id_length] at hlen
    rw [heq, mkPersonC5_id_length] at hlen
    rw [hlen] at hi
    exact absurd (List.mem_range.mp hi) (by norm_num)

/-! ### Claim C4: the matcher's output contract -/

/-- Pairing a list with its image under `f`. -/
lemma zip_self_map {α β : Type} (l : List α) (f : α → β) :
    l.zip (l.map f) = l.map (fun a => (a, f a)) := by
  induction l with
  | nil => rfl
  | cons a l ih => simp [ih]

/-- The idf weight is nonnegative: the document frequency never exceeds
the corpus size, so the smoothed log is nonnegative. -/
lemma idfOf_nonneg (docs : List (List String)) (t : String) :
    0 ≤ idfOf docs t := by
  unfold idfOf
  have hdf : (docFreq docs t : ℝ) ≤ (docs.length : ℝ) := by
    have := List.length_filter_le (fun d => d.contains t) docs
    exact_mod_cast this
  have hpos : (0 : ℝ) < 1 + (docFreq docs t : ℝ) := by positivity
  have hlog : 0 ≤ Real.log ((1 + (docs.length : ℝ)) / (1 + (docFreq docs t : ℝ))) :=
    Real.log_nonneg ((one_le_div hpos).mpr (by linarith))
  linarith

/-- Raw TF-IDF weights are nonnegative. -/
lemma tfidfRaw_nonneg (docs : List (List String)) (d : List String) :
    ∀ t, 0 ≤ tfidfRaw docs d t := by
  intro t
  unfold tfidfRaw
  exact mul_nonneg (Nat.cast_nonneg _) (idfOf_nonneg docs t)

lemma l2norm_nonneg (V : Finset String) (u : String → ℝ) : 0 ≤ l2norm V u :=
  Real.sqrt_nonneg _

lemma dotP_self_nonneg (V : Finset String) (u : String → ℝ) :
    0 ≤ dotP V u u :=
  Finset.sum_nonneg fun _ _ => mul_self_nonneg _

/-- Normalisation preserves nonnegativity. -/
lemma normalizeRow_nonneg (V : Finset String) (u : String → ℝ)
    (hu : ∀ t, 0 ≤ u t) : ∀ t, 0 ≤ normalizeRow V u t := by
  intro t
  unfold normalizeRow
  split
  · exact hu t
  · exact div_nonneg (hu t) (l2norm_nonneg V u)

/-- Cauchy–Schwarz for the vocabulary dot product. -/
lemma dotP_le_l2norm_mul (V : Finset String) (u v : String → ℝ) :
    dotP V u v ≤ l2norm V u * l2norm V v := by
  have hu : (∑ t ∈ V, u t ^ 2) = dotP V u u :=
    Finset.sum_congr rfl fun t _ => by rw [pow_two]
  have hv : (∑ t ∈ V, v t ^ 2) = dotP V v v :=
    Finset.sum_congr rfl fun t _ => by rw [pow_two]
  have h := Real.sum_mul_le_sqrt_mul_sqrt V u v
  rw [hu, hv] at h
  exact h

/-- A normalised row has norm at most one (exactly one unless the row is
zero, in which case it is zero). -/
lemma l2norm_normalizeRow_le_one (V : Finset String) (u : String → ℝ) :
    l2norm V (normalizeRow V u) ≤ 1 := by
  by_cases h : l2norm V u = 0
  · have heq : normalizeRow V u = u := by
      funext t
      unfold normalizeRow
      rw [if_pos h]
    rw [heq, h]
    norm_num
  · have hd0 : dotP V u u ≠ 0 := by
      intro hc
      apply h
      unfold l2norm
      rw [hc, Real.sqrt_zero]
    have hsum : dotP V (normalizeRow V u) (normalizeRow V u) = 1 := by
      unfold dotP normalizeRow
      rw [Finset.sum_congr rfl (fun t _ => by
        rw [if_neg h, div_mul_div_comm])]
      rw [← Finset.sum_div]
      rw [show l2norm V u * l2norm V u = dotP V u u from
        Real.mul_self_sqrt (dotP_self_nonneg V u)]
      exact div_self hd0
    unfold l2norm
    rw [hsum, Real.sqrt_one]

/-- Cosine similarity of nonnegative rows lies in [0, 1]. -/
lemma cosine_similarity_nonneg_le_one (V : Finset String) (u v : String → ℝ)
    (hu : ∀ t, 0 ≤ u t) (hv : ∀ t, 0 ≤ v t) :
    0 ≤ cosine_similarity V u v ∧ cosine_similarity V u v ≤ 1 := by
  constructor
  · unfold cosine_similarity dotP
    exact Finset.sum_nonneg fun t _ =>
      mul_nonneg (normalizeRow_nonneg V u hu t) (normalizeRow_nonneg V v hv t)
  · unfold cosine_similarity
    calc dotP V (normalizeRow V u) (normalizeRow V v)
        ≤ l2norm V (normalizeRow V u) * l2norm V (normalizeRow V v) :=
          dotP_le_l2norm_mul V _ _
      _ ≤ 1 := mul_le_one₀ (l2norm_normalizeRow_le_one V u)
          (l2norm_nonneg V _) (l2norm_normalizeRow_le_one V v)

/-- Cosine similarity against an all-zero row is zero (not NaN). -/
lemma cosine_similarity_zero_right (V : Finset String) (u w : String → ℝ)
    (hw : ∀ t, w t = 0) : cosine_similarity V u w = 0 := by
  have hnw : ∀ t, normalizeRow V w t = 0 := by
    intro t
    unfold normalizeRow
    split
    · exact hw t
    · rw [hw t, zero_div]
  unfold cosine_similarity dotP
  rw [Finset.sum_congr rfl (fun t _ => by rw [hnw t, mul_zero])]
  exact Finset.sum_const_zero

/-- The similarity the matcher assigns to one person: cosine of the
normalised TF-IDF rows of the requirement and of the person's summary,
over the corpus of this run. -/
noncomputable def personScore (tok : String → List String)
    (requirements : String) (persons : List Person) (p : Person) : ℝ :=
  cosine_similarity (vocabOf ((prepare_corpus requirements persons).map tok))
    (normalizeRow (vocabOf ((prepare_corpus requirements persons).map tok))
      (tfidfRaw ((prepare_corpus requirements persons).map tok)
        (tok requirements)))
    (normalizeRow (vocabOf ((prepare_corpus requirements persons).map tok))
      (tfidfRaw ((prepare_corpus requirements persons).map tok)
        (tok (expText p))))

lemma personScore_nonneg_le_one (tok : String → List String)
    (requirements : String) (persons : List Person) (p : Person) :
    0 ≤ personScore tok requirements persons p ∧
    personScore tok requirements persons p ≤ 1 := by
  unfold personScore
  exact cosine_similarity_nonneg_le_one _ _ _
    (normalizeRow_nonneg _ _ (tfidfRaw_nonneg _ _))
    (normalizeRow_nonneg _ _ (tfidfRaw_nonneg _ _))

/-- A person whose summary normalises to zero tokens scores zero. -/
lemma personScore_zero_of_no_tokens (tok : String → List String)
    (requirements : String) (persons : List Person) (p : Person)
    (htok0 : tok (expText p) = []) :
    personScore tok requirements persons p = 0 := by
  unfold personScore
  rw [htok0]
  apply cosine_similarity_zero_right
  intro t
  have hraw : ∀ t', tfidfRaw ((prepare_corpus requirements persons).map tok) [] t' = 0 := by
    intro t'
    unfold tfidfRaw
    simp
  unfold normalizeRow
  split
  · exact hraw t
  · rw [hraw t, zero_div]

/-- When the vocabulary is non-empty, the pre-sort pair list is one pair
per person, in input order, carrying `personScore`. -/
lemma matchPairs_eq (tok : String → List String) (requirements : String)
    (persons : List Person)
    (hvoc : vocabOf ((prepare_corpus requirements persons).map tok) ≠ ∅) :
    matchPairs tok requirements persons =
      persons.map (fun p => (p.id, personScore tok requirements persons p)) := by
  have hmat : create_tfidf_matrix tok (prepare_corpus requirements persons) =
      some (vocabOf ((prepare_corpus requirements persons).map tok),
        ((prepare_corpus requirements persons).map tok).map
          (fun d => normalizeRow
            (vocabOf ((prepare_corpus requirements persons).map tok))
            (tfidfRaw ((prepare_corpus requirements persons).map tok) d))) := by
    unfold create_tfidf_matrix
    rw [if_neg hvoc]
  unfold matchPairs
  rw [hmat]
  simp only [prepare_corpus, List.map_cons, List.map_map,
    compute_similarity_scores, zip_self_map, personScore, Function.comp]
  rfl

/-- Transitivity of the descending-by-score comparison. -/
lemma descLe_trans : ∀ a b c : String × ℝ,
    decide (b.2 ≤ a.2) = true → decide (c.2 ≤ b.2) = true →
    decide (c.2 ≤ a.2) = true := fun _ _ _ hab hbc =>
  decide_eq_true_iff.mpr (le_trans (of_decide_eq_true hbc) (of_decide_eq_true hab))

/-- Totality of the descending-by-score comparison. -/
lemma descLe_total : ∀ a b : String × ℝ,
    (decide (b.2 ≤ a.2) || decide (a.2 ≤ b.2)) = true := by
  intro a b
  rcases le_total b.2 a.2 with h | h <;> simp [h]

/-- The matcher's full output contract for one run: one pair per person
(as a permutation of the input ids), all scores within [0, 1], sorted by
score descending, stable (pairs with any given score keep the input
order), and zero-token persons present with score 0. -/
def MatcherSpec (tok : String → List String) (requirements : String)
    (persons : List Person) : Prop :=
  ((match_requirements tok requirements persons).map Prod.fst).Perm
    (persons.map Person.id) ∧
  (∀ x ∈ match_requirements tok requirements persons, 0 ≤ x.2 ∧ x.2 ≤ 1) ∧
  (match_requirements tok requirements persons).Pairwise
    (fun a b => b.2 ≤ a.2) ∧
  (∀ sc : ℝ, (match_requirements tok requirements persons).filter
      (fun x => decide (x.2 = sc)) =
    (matchPairs tok requirements persons).filter (fun x => decide (x.2 = sc))) ∧
  (∀ p ∈ persons,
    (p.experience_summary = none ∨ p.experience_summary = some "" ∨
      tok (expText p) = []) →
    (p.id, (0 : ℝ)) ∈ match_requirements tok requirements persons)

/-- C4: for every non-empty requirement and non-empty person list on
which vectorization succeeds (non-empty vocabulary), the matcher returns
one (person id, score) pair per input person, all scores in [0, 1],
sorted descending by score, ties kept in input order, and persons with an
empty or zero-token summary included with score 0. -/
theorem c4_matcher_output (tok : String → List String) (requirements : String)
    (persons : List Person)
    (htok : tok "" = [])
    (hreq : requirements ≠ "") (hps : persons ≠ [])
    (hvoc : vocabOf ((prepare_corpus requirements persons).map tok) ≠ ∅) :
    MatcherSpec tok requirements persons := by
  have hguard : (requirements == "" || persons.isEmpty) = false := by
    rw [Bool.or_eq_false_iff]
    refine ⟨beq_eq_false_iff_ne.mpr hreq, ?_⟩
    cases h : persons.isEmpty with
    | false => rfl
    | true => exact absurd (List.isEmpty_iff.mp h) hps
  have hmr : match_requirements tok requirements persons =
      sortDescBySnd (matchPairs tok requirements persons) := by
    unfold match_requirements
    rw [if_neg (by rw [hguard]; exact Bool.false_ne_true)]
  have hpairs := matchPairs_eq tok requirements persons hvoc
  refine ⟨?_, ?_, ?_, ?_, ?_⟩
  · rw [hmr, hpairs]
    unfold sortDescBySnd
    have hp := (List.mergeSort_perm (persons.map
      (fun q => (q.id, personScore tok requirements persons q)))
      (fun a b => decide (b.2 ≤ a.2))).map Prod.fst
    rw [List.map_map] at hp
    exact hp
  · intro x hx
    rw [hmr] at hx
    unfold sortDescBySnd at hx
    rw [List.mem_mergeSort, hpairs] at hx
    rcases List.mem_map.mp hx with ⟨p, _, rfl⟩
    exact personScore_nonneg_le_one tok requirements persons p
  · rw [hmr]
    unfold sortDescBySnd
    have hs := List.sorted_mergeSort descLe_trans descLe_total
      (matchPairs tok requirements persons)
    exact hs.imp fun h => of_decide_eq_true h
  · intro sc
    rw [hmr]
    unfold sortDescBySnd
    have hcsorted : ((matchPairs tok requirements persons).filter
        (fun x => decide (x.2 = sc))).Pairwise
        (fun a b => decide (b.2 ≤ a.2) = true) := by
      apply List.pairwise_of_forall_mem_list
      intro a ha b hb
      have ha2 : a.2 = sc := of_decide_eq_true (List.mem_filter.mp ha).2
      have hb2 : b.2 = sc := of_decide_eq_true (List.mem_filter.mp hb).2
      exact decide_eq_true_iff.mpr (by rw [ha2, hb2])
    have hsub := List.sublist_mergeSort descLe_trans descLe_total hcsorted
      (List.filter_sublist (matchPairs tok requirements persons))
    have hself : ((matchPairs tok requirements persons).filter
        (fun x => decide (x.2 = sc))).filter (fun x => decide (x.2 = sc)) =
        (matchPairs tok requirements persons).filter
          (fun x => decide (x.2 = sc)) :=
      List.filter_eq_self.mpr fun a ha => (List.mem_filter.mp ha).2
    have hsub2 := List.Sublist.filter (fun x => decide (x.2 = sc)) hsub
    rw [hself] at hsub2
    have hlen := (((List.mergeSort_perm (matchPairs tok requirements persons)
      (fun a b => decide (b.2 ≤ a.2))).filter
        (fun x => decide (x.2 = sc)))).length_eq
    exact (hsub2.eq_of_length hlen.symm).symm
  · intro p hp hcase
    have htok0 : tok (expText p) = [] := by
      rcases hcase with hc | hc | hc
      · rw [show expText p = "" from by unfold expText; rw [hc]]
        exact htok
      · rw [show expText p = "" from by
          unfold expText
          rw [hc]
          rfl]
        exact htok
      · exact hc
    rw [hmr]
    unfold sortDescBySnd
    rw [List.mem_mergeSort, hpairs]
    have hmem : (p.id, personScore tok requirements persons p) ∈
        persons.map (fun q => (q.id, personScore tok requirements persons q)) :=
      List.mem_map_of_mem _ hp
    rw [personScore_zero_of_no_tokens tok requirements persons p htok0] at hmem
    exact hmem

/-- C4 witness tokenizer: each non-empty string is one token. -/
def tok0 : String → List String := fun s => if s == "" then [] else [s]

/-- C4 witness person with a summary. -/
def c4p1 : Person :=
  { id := "x", full_name := some "X", experience_summary := some "python" }

/-- C4 witness person with no summary. -/
def c4p2 : Person := { id := "y", full_name := some "Y" }

/-- C4 witness at the concrete run: requirement "python" against two
persons. -/
theorem c4_matcher_output_witness :
    tok0 "" = [] ∧ ("python" : String) ≠ "" ∧
    ([c4p1, c4p2] : List Person) ≠ [] ∧
    vocabOf ((prepare_corpus "python" [c4p1, c4p2]).map tok0) ≠ ∅ ∧
    MatcherSpec tok0 "python" [c4p1, c4p2] :=
  ⟨rfl, by decide, List.cons_ne_nil _ _, by decide,
    c4_matcher_output tok0 "python" [c4p1, c4p2] rfl (by decide)
      (List.cons_ne_nil _ _) (by decide)⟩

end DirectMatch
